import Mathlib

/-!
Verification of the yggcrawl crawler core (main.go).

The crawler walks the Yggdrasil DHT: `dhtPing` probes one node identity at
given coordinates (with a retry loop), records the outcome in the shared
`dhtVisited` map under a write-if-better policy, schedules a `nodeInfo`
metadata fetch on the first success for an identity, and fans out one new
`dhtPing` task per rumour in the response.  `nodeInfo` fetches and parses the
node's self-description into `nodeInfoVisited`.  Two `sync.WaitGroup`
counters track outstanding work per phase; `main` drains the DHT phase, then
the nodeinfo phase, then aggregates counts and writes/prints a summary.

We embed the code shallowly: the body of each goroutine becomes a pure state
transition (the mutex-guarded critical sections execute atomically in the
source, so each invocation is modelled as one atomic step on the state);
side effects (probes issued, metadata fetches scheduled, fan-out tasks
spawned, log lines) are returned explicitly.  External collaborators
(yggdrasil-go's DHTPing/GetNodeInfo transports, crypto derivations,
json.Unmarshal, math/rand) are parameters.
-/

namespace Yggcrawl

/-- Default of the -retry flag: `flag.Int("retry", 5, ...)`. -/
def defaultRetryCount : Nat := 5

/-- One rumour inside a DHT ping response (yggdrasil.DHTRes.Infos element):
a candidate node's public key and coordinates. -/
structure DHTResInfo where
  PublicKey : String
  Coords : List Nat
deriving DecidableEq

/-- A DHT ping response (yggdrasil.DHTRes): the responder's coordinates and
the list of rumours. -/
structure DHTRes where
  Coords : List Nat
  Infos : List DHTResInfo
deriving DecidableEq

/-- The `attempt` record stored in `dhtVisited` (main.go lines 74-80). -/
structure attempt where
  NodeID : String
  IPv6Addr : String
  IPv6Subnet : String
  Coords : List Nat
  Found : Bool
deriving DecidableEq

/-- Go zero value of `attempt`: what `n.dhtVisited[key]` yields for a key
that is absent from the map. -/
def attempt.zero : attempt :=
  { NodeID := "", IPv6Addr := "", IPv6Subnet := "", Coords := [], Found := false }

/-- Schema-less parsed metadata document (the `interface{}` that
json.Unmarshal produces): a tree of nulls, booleans, numbers, strings,
sequences and mappings. -/
inductive JsonVal : Type where
  | null : JsonVal
  | boolean : Bool → JsonVal
  | number : Int → JsonVal
  | str : String → JsonVal
  | arr : List JsonVal → JsonVal
  | obj : List (String × JsonVal) → JsonVal

/-- Go maps keyed by the hex-encoded public key are modelled as association
lists; `mapGet? m k` is the `v, ok := m[k]` lookup. -/
def mapGet? {β : Type} : List (String × β) → String → Option β
  | [], _ => none
  | p :: m, k => if p.1 = k then some p.2 else mapGet? m k

/-- Map write `m[k] = v`: overwrite the entry if the key is present,
otherwise append it. -/
def mapInsert {β : Type} : List (String × β) → String → β → List (String × β)
  | [], k, v => [(k, v)]
  | p :: m, k, v => if p.1 = k then (k, v) :: m else p :: mapInsert m k v

/-- `n.dhtVisited[key]` with Go semantics: the zero `attempt` when absent. -/
def getAttempt (m : List (String × attempt)) (k : String) : attempt :=
  (mapGet? m k).getD attempt.zero

theorem mapGet?_insert_self {β : Type} (m : List (String × β)) (k : String) (v : β) :
    mapGet? (mapInsert m k v) k = some v := by
  induction m with
  | nil => simp [mapInsert, mapGet?]
  | cons p m ih =>
    by_cases hp : p.1 = k
    · simp [mapInsert, mapGet?, hp]
    · simp [mapInsert, mapGet?, hp, ih]

theorem mapGet?_insert_ne {β : Type} (m : List (String × β)) (k k' : String) (v : β)
    (hne : k ≠ k') : mapGet? (mapInsert m k v) k' = mapGet? m k' := by
  induction m with
  | nil => simp [mapInsert, mapGet?, hne]
  | cons p m ih =>
    by_cases hp : p.1 = k
    · simp [mapInsert, mapGet?, hp, hne]
    · by_cases hq : p.1 = k'
      · simp [mapInsert, mapGet?, hp, hq, Ne.symm hne]
      · simp [mapInsert, mapGet?, hp, hq, ih]

theorem getAttempt_insert_self (m : List (String × attempt)) (k : String) (v : attempt) :
    getAttempt (mapInsert m k v) k = v := by
  simp [getAttempt, mapGet?_insert_self]

theorem getAttempt_insert_ne (m : List (String × attempt)) (k k' : String) (v : attempt)
    (hne : k ≠ k') : getAttempt (mapInsert m k v) k' = getAttempt m k' := by
  simp [getAttempt, mapGet?_insert_ne m k k' v hne]

/-- External collaborators: the pure display-field derivations
(crypto.GetNodeID / address.AddrForNodeID / address.SubnetForNodeID chains,
keyed here by the hex public key) and json.Unmarshal.  They live outside this
repository; `dhtPing` and `nodeInfo` are parametric in them. -/
structure DeriveEnv where
  nodeIDOf : String → String
  addrOf : String → String
  subnetOf : String → String
  unmarshal : String → Except String JsonVal

/-- The shared crawler state: the two Go maps, plus `nodeInfoFetches`, the
log of `go n.nodeInfo(pubkey, coords)` calls issued so far (recorded so that
scheduling effects can be stated and counted). -/
structure CrawlState where
  dhtVisited : List (String × attempt)
  nodeInfoVisited : List (String × JsonVal)
  nodeInfoFetches : List (String × List Nat)

/-- The empty state both maps start from. -/
def initState : CrawlState := ⟨[], [], []⟩

/-- Result of one `dhtPing` invocation: the updated shared state plus its
explicit effects — whether the DHT probe was issued at all (`probed`),
whether a `nodeInfo` fetch was scheduled (`metaScheduled`), and the rumours
for which new `dhtPing` goroutines were spawned (`fanout`). -/
structure PingEffect where
  state : CrawlState
  probed : Bool
  metaScheduled : Bool
  fanout : List DHTResInfo

/-- The `attempt` record built at main.go lines 247-253: display fields from
the derivations, `Coords` = the coordinates this probe was sent to, `Found` =
whether the retry loop ended without error. -/
def mkAttempt (env : DeriveEnv) (key : String) (coords : List Nat)
    (probe : Option DHTRes) : attempt :=
  { NodeID := env.nodeIDOf key, IPv6Addr := env.addrOf key,
    IPv6Subnet := env.subnetOf key, Coords := coords, Found := probe.isSome }

/-- The dhtMutex-guarded tail of `dhtPing` (main.go lines 246-277): build the
record, write-if-better into `dhtVisited`, schedule a nodeInfo fetch on
first success, and fan out over the response's rumours.  `probe` is the
outcome of the retry loop: `some res` when the final `err == nil`. -/
def dhtLocked (env : DeriveEnv) (st : CrawlState) (key : String)
    (coords : List Nat) (probe : Option DHTRes) : PingEffect :=
  let info := mkAttempt env key coords probe
  let oldInfo := getAttempt st.dhtVisited key
  let dht := if info.Found || !oldInfo.Found then
    mapInsert st.dhtVisited key info else st.dhtVisited
  if !oldInfo.Found && info.Found then
    { state := { dhtVisited := dht,
                 nodeInfoVisited := st.nodeInfoVisited,
                 nodeInfoFetches := st.nodeInfoFetches ++ [(key, coords)] },
      probed := true, metaScheduled := true,
      fanout := (probe.map DHTRes.Infos).getD [] }
  else
    { state := { st with dhtVisited := dht },
      probed := true, metaScheduled := false, fanout := [] }

/-- One whole `dhtPing` invocation (main.go lines 206-278): the dedup check
against `dhtVisited` (return if the identity is already `Found`), then the
probe and the locked update `dhtLocked`. -/
def dhtPing (env : DeriveEnv) (st : CrawlState) (key : String)
    (coords : List Nat) (probe : Option DHTRes) : PingEffect :=
  if (getAttempt st.dhtVisited key).Found then
    { state := st, probed := false, metaScheduled := false, fanout := [] }
  else
    dhtLocked env st key coords probe

/-- One `dhtPing` invocation's inputs: the identity probed, the coordinates
used, and the probe's outcome over the retry loop. -/
structure PingEvent where
  key : String
  coords : List Nat
  probe : Option DHTRes

/-- A whole run of discovery work, as a sequence of `dhtPing` invocations
processed in some serialisation order (the mutex serialises the map
updates). -/
def runEvents (env : DeriveEnv) (st : CrawlState) : List PingEvent → CrawlState
  | [] => st
  | e :: es => runEvents env (dhtPing env st e.key e.coords e.probe).state es

/-- Result of one `nodeInfo` invocation: the updated state and the log lines
emitted (`fmt.Println(err)` on a json.Unmarshal failure). -/
structure NodeInfoEffect where
  state : CrawlState
  logged : List String

/-- One whole `nodeInfo` invocation (main.go lines 280-319): dedup against
`nodeInfoVisited`, then the retry loop (`payload = none` when every attempt
failed), return silently on exhaustion, else parse; store only a payload
that unmarshals, log and discard one that does not. -/
def nodeInfo (env : DeriveEnv) (st : CrawlState) (key : String)
    (payload : Option String) : NodeInfoEffect :=
  match mapGet? st.nodeInfoVisited key with
  | some _ => { state := st, logged := [] }
  | none =>
    match payload with
    | none => { state := st, logged := [] }
    | some res =>
      match env.unmarshal res with
      | .error e => { state := st, logged := [e] }
      | .ok j =>
        { state := { st with nodeInfoVisited := mapInsert st.nodeInfoVisited key j },
          logged := [] }

/-- Outcome of the retry loop around one remote call: `result` is the
`(res, err)` pair left by the last executed call (`none` when the loop made
zero calls), `calls` how many times the remote call ran, `sleeps` the
backoff delays (in milliseconds) taken before each attempt. -/
structure RetryOut (E A : Type) where
  result : Option (Except E A)
  calls : Nat
  sleeps : List Nat

/-- The retry loop body from `idx`, with `rem` iterations left
(main.go lines 232-244 and 297-303): sleep `rand.Intn(1000) * 2^idx`
milliseconds (the random draw for attempt `i` is `r i`), issue the call,
stop at the first success. -/
def retryAux {E A : Type} (call : Nat → Except E A) (r : Nat → Nat) :
    Nat → Nat → RetryOut E A
  | _, 0 => { result := none, calls := 0, sleeps := [] }
  | idx, rem + 1 =>
    let s := r idx * 2 ^ idx
    match call idx with
    | .ok a => { result := some (.ok a), calls := 1, sleeps := [s] }
    | .error e =>
      let rest := retryAux call r (idx + 1) rem
      { result := some (rest.result.getD (.error e)),
        calls := rest.calls + 1,
        sleeps := s :: rest.sleeps }

/-- The whole retry loop `for idx := 0; idx < count; idx++ { ... }`. -/
def retryLoop {E A : Type} (call : Nat → Except E A) (r : Nat → Nat)
    (count : Nat) : RetryOut E A :=
  retryAux call r 0 count

/-- The aggregation loop at main.go lines 168-173: count of entries with
`Found = true`. -/
def countFound (m : List (String × attempt)) : Nat :=
  (m.filter (fun p => p.2.Found)).length

/-- The count fields of `results.Meta` (main.go lines 60-69), Go `int`s. -/
structure MetaCounts where
  NodesAttempted : Int
  NodesSuccessful : Int
  NodesFailed : Int
  NodeInfoSuccessful : Int
  NodeInfoFailed : Int
deriving DecidableEq

/-- The aggregation at main.go lines 167-185, computed from the final two
maps once both wait groups have drained. -/
def aggregate (dht : List (String × attempt))
    (ni : List (String × JsonVal)) : MetaCounts :=
  let attempted : Int := dht.length
  let found : Int := countFound dht
  { NodesAttempted := attempted,
    NodesSuccessful := found,
    NodesFailed := attempted - found,
    NodeInfoSuccessful := (ni.length : Int),
    NodeInfoFailed := found - (ni.length : Int) }

/-- The five value-carrying console lines printed at main.go lines 198-203,
as (value printed, label) pairs, in print order.  The last two lines are
labelled as nodeinfo response counts but print `Meta.NodesSuccessful` and
`Meta.NodesFailed`. -/
def consoleSummary (meta : MetaCounts) : List (Int × String) :=
  [ (meta.NodesAttempted, "nodes were processed"),
    (meta.NodesSuccessful, "nodes were found"),
    (meta.NodesFailed, "nodes were not found"),
    (meta.NodesSuccessful, "nodes responded with nodeinfo"),
    (meta.NodesFailed, "nodes did not respond with nodeinfo") ]

/-- Whole-system state for the completion coordinator: the shared crawl
state, the two WaitGroup counters, and the multisets (lists) of scheduled
but not yet completed goroutines of each phase. -/
structure SysState where
  crawl : CrawlState
  dhtCounter : Nat
  nodeInfoCounter : Nat
  dhtPending : List (String × List Nat)
  nodeInfoPending : List (String × List Nat)

/-- Run the `i`-th outstanding dhtPing goroutine to completion, with probe
outcome `probe`.  Atomically: the goroutine performs `dhtPing`, does
`dhtWaitGroup.Add(1)` before each `go dhtPing` it spawns for a rumour
(main.go lines 274-277), `nodeInfoWaitGroup.Add(1)` before `go nodeInfo`
(lines 265-266), and its deferred `dhtWaitGroup.Done()` fires on every
return path (line 208). -/
def execDht (env : DeriveEnv) (s : SysState) (i : Nat) (probe : Option DHTRes)
    (h : i < s.dhtPending.length) : SysState :=
  let t := s.dhtPending.get ⟨i, h⟩
  let eff := dhtPing env s.crawl t.1 t.2 probe
  let spawned := eff.fanout.map (fun r => (r.PublicKey, r.Coords))
  { crawl := eff.state,
    dhtCounter := s.dhtCounter - 1 + spawned.length,
    nodeInfoCounter := s.nodeInfoCounter + (if eff.metaScheduled then 1 else 0),
    dhtPending := s.dhtPending.eraseIdx i ++ spawned,
    nodeInfoPending := s.nodeInfoPending ++
      (if eff.metaScheduled then [t] else []) }

/-- Run the `i`-th outstanding nodeInfo goroutine to completion, with fetch
outcome `payload`; its deferred `nodeInfoWaitGroup.Done()` fires on every
return path (main.go line 282). -/
def execNodeInfo (env : DeriveEnv) (s : SysState) (i : Nat)
    (payload : Option String) (h : i < s.nodeInfoPending.length) : SysState :=
  let t := s.nodeInfoPending.get ⟨i, h⟩
  let eff := nodeInfo env s.crawl t.1 payload
  { crawl := eff.state,
    dhtCounter := s.dhtCounter,
    nodeInfoCounter := s.nodeInfoCounter - 1,
    dhtPending := s.dhtPending,
    nodeInfoPending := s.nodeInfoPending.eraseIdx i }

/-- Interleaving semantics: at each step the scheduler completes one
outstanding goroutine of either phase, with a nondeterministic remote
outcome. -/
inductive Step (env : DeriveEnv) : SysState → SysState → Prop
  | dht (s : SysState) (i : Nat) (probe : Option DHTRes)
      (h : i < s.dhtPending.length) : Step env s (execDht env s i probe h)
  | node (s : SysState) (i : Nat) (payload : Option String)
      (h : i < s.nodeInfoPending.length) :
      Step env s (execNodeInfo env s i payload h)

/-- The state set up by main.go lines 149-153: empty maps, the seed
identity's dhtPing goroutine scheduled, and `dhtWaitGroup.Add(1)` already
done before the `go` statement. -/
def initSys (seedKey : String) (seedCoords : List Nat) : SysState :=
  { crawl := initState, dhtCounter := 1, nodeInfoCounter := 0,
    dhtPending := [(seedKey, seedCoords)], nodeInfoPending := [] }

/-- Reachability under the scheduler. -/
inductive Reach (env : DeriveEnv) (s0 : SysState) : SysState → Prop
  | refl : Reach env s0 s0
  | step {s s' : SysState} : Reach env s0 s → Step env s s' → Reach env s0 s'

theorem dhtLocked_dhtVisited (env : DeriveEnv) (st : CrawlState) (key : String)
    (coords : List Nat) (probe : Option DHTRes) :
    (dhtLocked env st key coords probe).state.dhtVisited =
      if probe.isSome || !(getAttempt st.dhtVisited key).Found then
        mapInsert st.dhtVisited key (mkAttempt env key coords probe)
      else st.dhtVisited := by
  simp only [dhtLocked, mkAttempt]
  split <;> rfl

theorem dhtLocked_nodeInfoVisited (env : DeriveEnv) (st : CrawlState) (key : String)
    (coords : List Nat) (probe : Option DHTRes) :
    (dhtLocked env st key coords probe).state.nodeInfoVisited = st.nodeInfoVisited := by
  simp only [dhtLocked, mkAttempt]
  split <;> rfl

theorem dhtLocked_fetches (env : DeriveEnv) (st : CrawlState) (key : String)
    (coords : List Nat) (probe : Option DHTRes) :
    (dhtLocked env st key coords probe).state.nodeInfoFetches =
      st.nodeInfoFetches ++
        (if !(getAttempt st.dhtVisited key).Found && probe.isSome then
          [(key, coords)] else []) := by
  simp only [dhtLocked, mkAttempt]
  split <;> simp_all

theorem dhtLocked_metaScheduled (env : DeriveEnv) (st : CrawlState) (key : String)
    (coords : List Nat) (probe : Option DHTRes) :
    (dhtLocked env st key coords probe).metaScheduled =
      (!(getAttempt st.dhtVisited key).Found && probe.isSome) := by
  simp only [dhtLocked, mkAttempt]
  split <;> simp_all

theorem dhtLocked_fanout (env : DeriveEnv) (st : CrawlState) (key : String)
    (coords : List Nat) (probe : Option DHTRes) :
    (dhtLocked env st key coords probe).fanout =
      if !(getAttempt st.dhtVisited key).Found && probe.isSome then
        (probe.map DHTRes.Infos).getD [] else [] := by
  simp only [dhtLocked, mkAttempt]
  split <;> simp_all

theorem dhtPing_found (env : DeriveEnv) (st : CrawlState) (key : String)
    (coords : List Nat) (probe : Option DHTRes)
    (hd : (getAttempt st.dhtVisited key).Found = true) :
    dhtPing env st key coords probe =
      { state := st, probed := false, metaScheduled := false, fanout := [] } := by
  simp only [dhtPing]
  rw [if_pos hd]

theorem dhtPing_not_found (env : DeriveEnv) (st : CrawlState) (key : String)
    (coords : List Nat) (probe : Option DHTRes)
    (hd : ¬(getAttempt st.dhtVisited key).Found = true) :
    dhtPing env st key coords probe = dhtLocked env st key coords probe := by
  simp only [dhtPing]
  rw [if_neg hd]

theorem found_sticky_step (env : DeriveEnv) (st : CrawlState) (key k : String)
    (coords : List Nat) (probe : Option DHTRes)
    (h : (getAttempt st.dhtVisited k).Found = true) :
    (getAttempt (dhtPing env st key coords probe).state.dhtVisited k).Found = true := by
  by_cases hd : (getAttempt st.dhtVisited key).Found = true
  · rw [dhtPing_found env st key coords probe hd]
    exact h
  · rw [dhtPing_not_found env st key coords probe hd]
    rw [dhtLocked_dhtVisited]
    by_cases hk : key = k
    · subst hk
      exact absurd h hd
    · split
      · rw [getAttempt_insert_ne st.dhtVisited key k _ hk]
        exact h
      · exact h

theorem found_sticky_run (env : DeriveEnv) (st : CrawlState) (es : List PingEvent)
    (k : String) (h : (getAttempt st.dhtVisited k).Found = true) :
    (getAttempt (runEvents env st es).dhtVisited k).Found = true := by
  induction es generalizing st with
  | nil => exact h
  | cons e es ih =>
    exact ih _ (found_sticky_step env st e.key k e.coords e.probe h)

/-- Number of `go nodeInfo` calls issued so far for identity `k`. -/
def fetchCount (st : CrawlState) (k : String) : Nat :=
  (st.nodeInfoFetches.filter (fun p => p.1 == k)).length

theorem fetchCount_dhtLocked (env : DeriveEnv) (st : CrawlState) (key k : String)
    (coords : List Nat) (probe : Option DHTRes) :
    fetchCount (dhtLocked env st key coords probe).state k =
      fetchCount st k +
        (if (!(getAttempt st.dhtVisited key).Found && probe.isSome) = true ∧ key = k
          then 1 else 0) := by
  unfold fetchCount
  rw [dhtLocked_fetches]
  by_cases hc : (!(getAttempt st.dhtVisited key).Found && probe.isSome) = true
  · rw [if_pos hc, List.filter_append, List.length_append]
    by_cases hk : key = k
    · subst hk
      simp [hc]
    · simp [hc, hk]
  · rw [if_neg hc]
    simp [hc]

theorem fetch_inv_step (env : DeriveEnv) (st : CrawlState) (key k : String)
    (coords : List Nat) (probe : Option DHTRes)
    (h1 : fetchCount st k ≤ 1)
    (h2 : 1 ≤ fetchCount st k → (getAttempt st.dhtVisited k).Found = true) :
    fetchCount (dhtPing env st key coords probe).state k ≤ 1 ∧
      (1 ≤ fetchCount (dhtPing env st key coords probe).state k →
        (getAttempt (dhtPing env st key coords probe).state.dhtVisited k).Found = true) := by
  by_cases hd : (getAttempt st.dhtVisited key).Found = true
  · rw [dhtPing_found env st key coords probe hd]
    exact ⟨h1, h2⟩
  · rw [dhtPing_not_found env st key coords probe hd]
    have hdv := dhtLocked_dhtVisited env st key coords probe
    have hcnt := fetchCount_dhtLocked env st key k coords probe
    have hdf : (getAttempt st.dhtVisited key).Found = false := by
      simpa using hd
    by_cases hk : key = k
    · subst hk
      have hc0 : fetchCount st key = 0 := by
        by_contra hc
        have := h2 (by omega)
        rw [this] at hdf
        exact Bool.false_ne_true hdf.symm
      cases probe with
      | none =>
        constructor
        · rw [hcnt, hc0]
          simp
        · intro hge
          rw [hcnt, hc0] at hge
          simp at hge
      | some res =>
        constructor
        · rw [hcnt, hc0]
          simp [hdf]
        · intro _
          rw [hdv]
          simp only [hdf, Option.isSome_some, Bool.not_false, Bool.or_true, if_true]
          rw [getAttempt_insert_self]
          simp [mkAttempt]
    · have hcnt2 : fetchCount (dhtLocked env st key coords probe).state k =
          fetchCount st k := by
        rw [hcnt]
        simp [hk]
      constructor
      · rw [hcnt2]; exact h1
      · intro hge
        rw [hcnt2] at hge
        rw [hdv]
        split
        · rw [getAttempt_insert_ne st.dhtVisited key k _ hk]
          exact h2 hge
        · exact h2 hge

theorem fetch_inv_run (env : DeriveEnv) (st : CrawlState) (es : List PingEvent)
    (k : String) (h1 : fetchCount st k ≤ 1)
    (h2 : 1 ≤ fetchCount st k → (getAttempt st.dhtVisited k).Found = true) :
    fetchCount (runEvents env st es) k ≤ 1 := by
  induction es generalizing st with
  | nil => exact h1
  | cons e es ih =>
    have := fetch_inv_step env st e.key k e.coords e.probe h1 h2
    exact ih _ this.1 this.2

/-- A concrete environment used to instantiate the parametric theorems. -/
def env0 : DeriveEnv :=
  { nodeIDOf := fun _ => "node", addrOf := fun _ => "addr",
    subnetOf := fun _ => "subnet", unmarshal := fun _ => Except.ok JsonVal.null }

/-- A concrete confirmed attempt record. -/
def attemptFoundA : attempt :=
  { NodeID := "node", IPv6Addr := "addr", IPv6Subnet := "subnet",
    Coords := [1], Found := true }

/-- A concrete state in which identity "a" is already confirmed. -/
def stFoundA : CrawlState :=
  { dhtVisited := [("a", attemptFoundA)], nodeInfoVisited := [], nodeInfoFetches := [] }

/-- A concrete successful DHT response rumouring identity "c". -/
def res0 : DHTRes :=
  { Coords := [5], Infos := [{ PublicKey := "c", Coords := [7] }] }

/-- C1: the discovery-record update in dhtPing overwrites the stored entry
for an identity iff the new probe succeeded or the prior stored entry had
not succeeded; consequently, once an identity's record reaches Found = true,
no later sequence of probe results, however long, downgrades it to
Found = false. -/
theorem dhtPing_writeIfBetter_sticky :
    (∀ (env : DeriveEnv) (st : CrawlState) (key : String) (coords : List Nat)
        (probe : Option DHTRes),
      (dhtLocked env st key coords probe).state.dhtVisited =
          mapInsert st.dhtVisited key (mkAttempt env key coords probe) ↔
        (probe.isSome = true ∨ (getAttempt st.dhtVisited key).Found = false)) ∧
    (∀ (env : DeriveEnv) (st : CrawlState) (es : List PingEvent) (k : String),
      (getAttempt st.dhtVisited k).Found = true →
      (getAttempt (runEvents env st es).dhtVisited k).Found = true) := by
  constructor
  · intro env st key coords probe
    constructor
    · intro heq
      by_contra hcon
      push_neg at hcon
      obtain ⟨hns, hf⟩ := hcon
      have hs : probe.isSome = false := by
        cases hb : probe.isSome
        · rfl
        · exact absurd hb hns
      have hf' : (getAttempt st.dhtVisited key).Found = true := by
        cases hb : (getAttempt st.dhtVisited key).Found
        · exact absurd hb hf
        · rfl
      rw [dhtLocked_dhtVisited, hs, hf'] at heq
      simp only [Bool.not_true, Bool.or_false, Bool.false_eq_true, if_false] at heq
      have h2 : (getAttempt st.dhtVisited key).Found =
          (getAttempt (mapInsert st.dhtVisited key (mkAttempt env key coords probe))
            key).Found := by
        rw [← heq]
      rw [getAttempt_insert_self, hf'] at h2
      simp [mkAttempt, hs] at h2
    · intro hcond
      rw [dhtLocked_dhtVisited]
      have hc : (probe.isSome || !(getAttempt st.dhtVisited key).Found) = true := by
        rcases hcond with h | h <;> simp [h]
      rw [if_pos hc]
  · intro env st es k h
    exact found_sticky_run env st es k h

/-- C1 witness: identity "a" confirmed, then one failing probe for "a" is
processed; the record stays Found = true. -/
theorem dhtPing_writeIfBetter_sticky_wit :
    (getAttempt stFoundA.dhtVisited "a").Found = true ∧
      (getAttempt (runEvents env0 stFoundA
        [{ key := "a", coords := [2], probe := none }]).dhtVisited "a").Found = true :=
  ⟨by decide, dhtPing_writeIfBetter_sticky.2 env0 stFoundA
    [{ key := "a", coords := [2], probe := none }] "a" (by decide)⟩

/-- C2: a nodeInfo fetch is scheduled by dhtPing exactly on the transition
of the identity's record from not-found to found (prior entry absent or
Found = false, and this probe succeeded), and over any whole run from the
empty initial state at most one fetch is ever issued per identity. -/
theorem dhtPing_metadata_once :
    (∀ (env : DeriveEnv) (st : CrawlState) (key : String) (coords : List Nat)
        (probe : Option DHTRes),
      (dhtPing env st key coords probe).metaScheduled = true ↔
        ((getAttempt st.dhtVisited key).Found = false ∧ probe.isSome = true)) ∧
    (∀ (env : DeriveEnv) (es : List PingEvent) (k : String),
      fetchCount (runEvents env initState es) k ≤ 1) := by
  constructor
  · intro env st key coords probe
    by_cases hd : (getAttempt st.dhtVisited key).Found = true
    · rw [dhtPing_found env st key coords probe hd]
      simp [hd]
    · rw [dhtPing_not_found env st key coords probe hd]
      rw [dhtLocked_metaScheduled]
      have hdf : (getAttempt st.dhtVisited key).Found = false := by simpa using hd
      simp [hdf]
  · intro env es k
    apply fetch_inv_run
    · simp [fetchCount, initState]
    · intro hge
      simp [fetchCount, initState] at hge

/-- C5: fan-out happens only on the first-success path — every rumour in the
response is scheduled when the identity was not yet found and the probe
succeeded; when the identity was already confirmed or the probe failed, no
fan-out tasks are scheduled. -/
theorem dhtPing_fanout_first_success :
    (∀ (env : DeriveEnv) (st : CrawlState) (key : String) (coords : List Nat)
        (res : DHTRes),
      (getAttempt st.dhtVisited key).Found = false →
      (dhtPing env st key coords (some res)).fanout = res.Infos) ∧
    (∀ (env : DeriveEnv) (st : CrawlState) (key : String) (coords : List Nat)
        (probe : Option DHTRes),
      ((getAttempt st.dhtVisited key).Found = true ∨ probe = none) →
      (dhtPing env st key coords probe).fanout = []) := by
  constructor
  · intro env st key coords res h
    rw [dhtPing_not_found env st key coords (some res) (by simp [h])]
    rw [dhtLocked_fanout]
    simp [h]
  · intro env st key coords probe h
    rcases h with h | h
    · rw [dhtPing_found env st key coords probe h]
    · subst h
      by_cases hd : (getAttempt st.dhtVisited key).Found = true
      · rw [dhtPing_found env st key coords none hd]
      · rw [dhtPing_not_found env st key coords none hd]
        rw [dhtLocked_fanout]
        simp

/-- C5 witness: a fresh identity whose probe succeeds fans out exactly the
response's rumours; an already-confirmed identity fans out nothing. -/
theorem dhtPing_fanout_first_success_wit :
    (getAttempt initState.dhtVisited "b").Found = false ∧
      (dhtPing env0 initState "b" [1] (some res0)).fanout = res0.Infos ∧
      (dhtPing env0 stFoundA "a" [1] (some res0)).fanout = [] :=
  ⟨by decide, dhtPing_fanout_first_success.1 env0 initState "b" [1] res0 (by decide),
    dhtPing_fanout_first_success.2 env0 stFoundA "a" [1] (some res0)
      (Or.inl (by decide))⟩

/-- C6: if the identity is already Found = true in the discovery map, the
dhtPing call returns at the dedup check: no probe, no map change, no
metadata fetch, no fan-out, and the stored record (its coordinate path
included) is untouched even when the call carries different coordinates. -/
theorem dhtPing_dedup_noop (env : DeriveEnv) (st : CrawlState) (key : String)
    (coords : List Nat) (probe : Option DHTRes)
    (h : (getAttempt st.dhtVisited key).Found = true) :
    dhtPing env st key coords probe =
        { state := st, probed := false, metaScheduled := false, fanout := [] } ∧
      getAttempt (dhtPing env st key coords probe).state.dhtVisited key =
        getAttempt st.dhtVisited key := by
  have he := dhtPing_found env st key coords probe h
  exact ⟨he, by rw [he]⟩

/-- C6 witness: identity "a" is stored with coordinate path [1]; a call with
different coordinates [9] and a successful response is a no-op. -/
theorem dhtPing_dedup_noop_wit :
    (getAttempt stFoundA.dhtVisited "a").Found = true ∧
      (dhtPing env0 stFoundA "a" [9] (some res0) =
          { state := stFoundA, probed := false, metaScheduled := false, fanout := [] } ∧
        getAttempt (dhtPing env0 stFoundA "a" [9] (some res0)).state.dhtVisited "a" =
          getAttempt stFoundA.dhtVisited "a") :=
  ⟨by decide, dhtPing_dedup_noop env0 stFoundA "a" [9] (some res0) (by decide)⟩

/-- C7: whenever dhtPing writes the discovery map (the identity was not yet
found), the record stored under the identity carries exactly the coordinate
path used for the probe and a Found flag equal to the probe's outcome. -/
theorem dhtPing_stored_record (env : DeriveEnv) (st : CrawlState) (key : String)
    (coords : List Nat) (probe : Option DHTRes)
    (h : (getAttempt st.dhtVisited key).Found = false) :
    getAttempt (dhtPing env st key coords probe).state.dhtVisited key =
        mkAttempt env key coords probe ∧
      (mkAttempt env key coords probe).Coords = coords ∧
      (mkAttempt env key coords probe).Found = probe.isSome := by
  refine ⟨?_, rfl, rfl⟩
  rw [dhtPing_not_found env st key coords probe (by simp [h])]
  rw [dhtLocked_dhtVisited]
  rw [if_pos (by simp [h])]
  exact getAttempt_insert_self st.dhtVisited key (mkAttempt env key coords probe)

/-- C7 witness: a failing probe for a fresh identity stores its probe
coordinates with Found = false. -/
theorem dhtPing_stored_record_wit :
    (getAttempt initState.dhtVisited "b").Found = false ∧
      (getAttempt (dhtPing env0 initState "b" [2, 3] none).state.dhtVisited "b" =
          mkAttempt env0 "b" [2, 3] none ∧
        (mkAttempt env0 "b" [2, 3] none).Coords = [2, 3] ∧
        (mkAttempt env0 "b" [2, 3] none).Found = Option.isSome (none : Option DHTRes)) :=
  ⟨by decide, dhtPing_stored_record env0 initState "b" [2, 3] none (by decide)⟩

/-- An environment whose json.Unmarshal always fails. -/
def envErr : DeriveEnv :=
  { nodeIDOf := fun _ => "node", addrOf := fun _ => "addr",
    subnetOf := fun _ => "subnet", unmarshal := fun _ => Except.error "bad" }

/-- C8: a failed metadata fetch — retry exhaustion or a payload that fails
to parse — leaves the identity absent from the metadata map (no error
record is stored anywhere: the state is unchanged), the parse failure is
logged, and a nodeInfo call never touches the discovery map or the fetch
log in any case. -/
theorem nodeInfo_failure_silent :
    (∀ (env : DeriveEnv) (st : CrawlState) (key : String),
      nodeInfo env st key none = { state := st, logged := [] }) ∧
    (∀ (env : DeriveEnv) (st : CrawlState) (key res e : String),
      mapGet? st.nodeInfoVisited key = none →
      env.unmarshal res = Except.error e →
      nodeInfo env st key (some res) = { state := st, logged := [e] }) ∧
    (∀ (env : DeriveEnv) (st : CrawlState) (key : String) (payload : Option String),
      (nodeInfo env st key payload).state.dhtVisited = st.dhtVisited ∧
      (nodeInfo env st key payload).state.nodeInfoFetches = st.nodeInfoFetches) := by
  refine ⟨?_, ?_, ?_⟩
  · intro env st key
    unfold nodeInfo
    split <;> rfl
  · intro env st key res e h1 h2
    simp [nodeInfo, h1, h2]
  · intro env st key payload
    constructor <;>
    · unfold nodeInfo
      split
      · rfl
      · split
        · rfl
        · split <;> rfl

/-- C8 witness: for identity "a" absent from the metadata map, a payload
that fails to unmarshal is logged and discarded, leaving the state
untouched. -/
theorem nodeInfo_failure_silent_wit :
    mapGet? initState.nodeInfoVisited "a" = none ∧
      envErr.unmarshal "x" = Except.error "bad" ∧
      nodeInfo envErr initState "a" (some "x") =
        { state := initState, logged := ["bad"] } :=
  ⟨rfl, rfl, nodeInfo_failure_silent.2.1 envErr initState "a" "x" "bad" rfl rfl⟩

/-- C4: the final snapshot counts satisfy attempted = discovery map size,
successful = number of discovery entries with Found = true, failed =
attempted − successful, nodeinfo-successful = metadata map size, and
nodeinfo-failed = successful − nodeinfo-successful. -/
theorem aggregate_counts_correct (dht : List (String × attempt))
    (ni : List (String × JsonVal)) :
    (aggregate dht ni).NodesAttempted = (dht.length : Int) ∧
      (aggregate dht ni).NodesSuccessful = (countFound dht : Int) ∧
      (aggregate dht ni).NodesFailed =
        (aggregate dht ni).NodesAttempted - (aggregate dht ni).NodesSuccessful ∧
      (aggregate dht ni).NodeInfoSuccessful = (ni.length : Int) ∧
      (aggregate dht ni).NodeInfoFailed =
        (aggregate dht ni).NodesSuccessful - (aggregate dht ni).NodeInfoSuccessful :=
  ⟨rfl, rfl, rfl, rfl, rfl⟩

/-- C10: the last two console lines, though labelled as nodeinfo response
counts, print `Meta.NodesSuccessful` and `Meta.NodesFailed` (the
discovery-phase counts), while the JSON document's nodeinfo fields hold the
metadata-phase counts; on a state with one found node and an empty metadata
map the printed pair differs from the JSON nodeinfo count. -/
theorem console_nodeinfo_mislabel (dht : List (String × attempt))
    (ni : List (String × JsonVal)) :
    (consoleSummary (aggregate dht ni)).getD 3 (0, "") =
        ((aggregate dht ni).NodesSuccessful, "nodes responded with nodeinfo") ∧
      (consoleSummary (aggregate dht ni)).getD 4 (0, "") =
        ((aggregate dht ni).NodesFailed, "nodes did not respond with nodeinfo") ∧
      (aggregate dht ni).NodesSuccessful = (countFound dht : Int) ∧
      (aggregate dht ni).NodesFailed = (dht.length : Int) - (countFound dht : Int) ∧
      (aggregate dht ni).NodeInfoSuccessful = (ni.length : Int) ∧
      (aggregate dht ni).NodeInfoFailed = (countFound dht : Int) - (ni.length : Int) ∧
      (consoleSummary (aggregate [("a", attemptFoundA)] [])).getD 3 (0, "") ≠
        ((aggregate [("a", attemptFoundA)] []).NodeInfoSuccessful,
          "nodes responded with nodeinfo") :=
  ⟨rfl, rfl, rfl, rfl, rfl, rfl, by decide⟩

/-- Does this call outcome correspond to `err != nil`? -/
def isFailure {E A : Type} : Except E A → Bool
  | .error _ => true
  | .ok _ => false

theorem retryAux_calls_le {E A : Type} (call : Nat → Except E A) (r : Nat → Nat) :
    ∀ (rem idx : Nat), (retryAux call r idx rem).calls ≤ rem := by
  intro rem
  induction rem with
  | zero => intro idx; simp [retryAux]
  | succ n ih =>
    intro idx
    simp only [retryAux]
    split
    · simp
    · simpa using ih (idx + 1)

theorem retryAux_sleeps {E A : Type} (call : Nat → Except E A) (r : Nat → Nat) :
    ∀ (rem idx : Nat), (retryAux call r idx rem).sleeps =
      (List.range (retryAux call r idx rem).calls).map
        (fun j => r (idx + j) * 2 ^ (idx + j)) := by
  intro rem
  induction rem with
  | zero => intro idx; simp [retryAux]
  | succ n ih =>
    intro idx
    simp only [retryAux]
    split
    · simp [List.range_succ]
    · show r idx * 2 ^ idx :: (retryAux call r (idx + 1) n).sleeps =
        (List.range ((retryAux call r (idx + 1) n).calls + 1)).map
          (fun j => r (idx + j) * 2 ^ (idx + j))
      rw [ih (idx + 1), List.range_succ_eq_map, List.map_cons, List.map_map]
      refine congrArg₂ List.cons (by simp) ?_
      apply List.map_congr_left
      intro j _
      simp only [Function.comp_apply]
      have hj : idx + (j + 1) = idx + 1 + j := by omega
      rw [← hj]

theorem retryAux_allfail {E A : Type} (call : Nat → Except E A) (r : Nat → Nat) :
    ∀ (rem idx : Nat), 1 ≤ rem →
      (∀ j, j < rem → isFailure (call (idx + j)) = true) →
      (retryAux call r idx rem).calls = rem ∧
        (retryAux call r idx rem).result = some (call (idx + rem - 1)) := by
  intro rem
  induction rem with
  | zero => intro idx h; omega
  | succ n ih =>
    intro idx _ hfail
    simp only [retryAux]
    cases hc : call idx with
    | ok a =>
      exfalso
      have h0 := hfail 0 (by omega)
      rw [Nat.add_zero, hc] at h0
      simp [isFailure] at h0
    | error e =>
      by_cases hn : 1 ≤ n
      · have hrest := ih (idx + 1) hn (fun j hj => by
          have := hfail (j + 1) (by omega)
          have hjj : idx + (j + 1) = idx + 1 + j := by omega
          rwa [hjj] at this)
        constructor
        · show (retryAux call r (idx + 1) n).calls + 1 = n + 1
          rw [hrest.1]
        · show some ((retryAux call r (idx + 1) n).result.getD (Except.error e)) =
            some (call (idx + (n + 1) - 1))
          rw [hrest.2]
          have hidx : idx + 1 + n - 1 = idx + (n + 1) - 1 := by omega
          rw [Option.getD_some, hidx]
      · have hn0 : n = 0 := by omega
        subst hn0
        constructor
        · show (retryAux call r (idx + 1) 0).calls + 1 = 0 + 1
          simp [retryAux]
        · show some ((retryAux call r (idx + 1) 0).result.getD (Except.error e)) =
            some (call (idx + (0 + 1) - 1))
          have hidx : idx + (0 + 1) - 1 = idx := by omega
          rw [hidx, hc]
          rfl

theorem retryAux_first_ok {E A : Type} (call : Nat → Except E A) (r : Nat → Nat) :
    ∀ (k rem idx : Nat) (a : A), k < rem →
      (∀ j, j < k → isFailure (call (idx + j)) = true) →
      call (idx + k) = Except.ok a →
      (retryAux call r idx rem).calls = k + 1 ∧
        (retryAux call r idx rem).result = some (Except.ok a) := by
  intro k
  induction k with
  | zero =>
    intro rem idx a hlt _ hok
    rw [Nat.add_zero] at hok
    cases rem with
    | zero => omega
    | succ n =>
      simp only [retryAux]
      rw [hok]
      exact ⟨rfl, rfl⟩
  | succ m ih =>
    intro rem idx a hlt hf hok
    cases rem with
    | zero => omega
    | succ n =>
      simp only [retryAux]
      have h0 := hf 0 (by omega)
      rw [Nat.add_zero] at h0
      cases hc : call idx with
      | ok b =>
        rw [hc] at h0
        simp [isFailure] at h0
      | error e =>
        have hrest := ih n (idx + 1) a (by omega)
          (fun j hj => by
            have := hf (j + 1) (by omega)
            have hjj : idx + (j + 1) = idx + 1 + j := by omega
            rwa [hjj] at this)
          (by
            have hjj : idx + (m + 1) = idx + 1 + m := by omega
            rwa [hjj] at hok)
        constructor
        · show (retryAux call r (idx + 1) n).calls + 1 = m + 1 + 1
          rw [hrest.1]
        · show some ((retryAux call r (idx + 1) n).result.getD (Except.error e)) =
            some (Except.ok a)
          rw [hrest.2]
          rfl

/-- C3: the retry wrapper makes at most `count` attempts; the backoff slept
before attempt `i` is the random draw `r i` (rand.Intn(1000)) scaled by
`2^i`; it stops at the first success; and with the default retryCount of 5
and every call failing, the probe is invoked exactly 5 times, the backoff
scale factors are 2^0 … 2^4, and the last failure is reported. -/
theorem retryLoop_bounds :
    (∀ (E A : Type) (call : Nat → Except E A) (r : Nat → Nat) (count : Nat),
      (retryLoop call r count).calls ≤ count) ∧
    (∀ (E A : Type) (call : Nat → Except E A) (r : Nat → Nat) (count : Nat),
      (retryLoop call r count).sleeps =
        (List.range (retryLoop call r count).calls).map (fun i => r i * 2 ^ i)) ∧
    (∀ (E A : Type) (call : Nat → Except E A) (r : Nat → Nat) (count k : Nat) (a : A),
      k < count → (∀ j, j < k → isFailure (call j) = true) →
      call k = Except.ok a →
      (retryLoop call r count).calls = k + 1 ∧
        (retryLoop call r count).result = some (Except.ok a)) ∧
    (∀ (E A : Type) (call : Nat → Except E A) (r : Nat → Nat),
      (∀ j, j < defaultRetryCount → isFailure (call j) = true) →
      (retryLoop call r defaultRetryCount).calls = 5 ∧
        (retryLoop call r defaultRetryCount).sleeps =
          [r 0 * 1, r 1 * 2, r 2 * 4, r 3 * 8, r 4 * 16] ∧
        (retryLoop call r defaultRetryCount).result = some (call 4)) := by
  refine ⟨?_, ?_, ?_, ?_⟩
  · intro E A call r count
    exact retryAux_calls_le call r count 0
  · intro E A call r count
    have h := retryAux_sleeps call r count 0
    simpa using h
  · intro E A call r count k a hlt hf hok
    have h := retryAux_first_ok call r k count 0 a hlt (by simpa using hf) (by simpa using hok)
    exact h
  · intro E A call r hf
    have h := retryAux_allfail call r defaultRetryCount 0 (by decide) (by simpa using hf)
    have hcalls : (retryLoop call r defaultRetryCount).calls = 5 := h.1
    refine ⟨hcalls, ?_, by simpa using h.2⟩
    have hs := retryAux_sleeps call r defaultRetryCount 0
    rw [retryLoop] at hcalls ⊢
    rw [hs, hcalls]
    norm_num [List.range_succ]

/-- Concrete call oracles for the retry-wrapper witness. -/
def callOk2 : Nat → Except String Nat := fun i => if i = 2 then .ok 7 else .error "fail"

/-- A call oracle that always fails. -/
def callBad : Nat → Except String Nat := fun _ => .error "fail"

/-- A concrete random-draw oracle. -/
def rOracle : Nat → Nat := fun i => 100 + i

/-- C3 witness: a call succeeding at 0-indexed attempt 2 stops after 3
calls; a call that always fails is invoked exactly 5 times with backoff
scale factors 1, 2, 4, 8, 16 and reports the last failure. -/
theorem retryLoop_bounds_wit :
    ((2 : Nat) < 5 ∧ (∀ j, j < 2 → isFailure (callOk2 j) = true) ∧
        callOk2 2 = Except.ok 7 ∧
        (retryLoop callOk2 rOracle 5).calls = 2 + 1 ∧
        (retryLoop callOk2 rOracle 5).result = some (Except.ok 7)) ∧
      ((∀ j, j < defaultRetryCount → isFailure (callBad j) = true) ∧
        (retryLoop callBad rOracle defaultRetryCount).calls = 5 ∧
        (retryLoop callBad rOracle defaultRetryCount).sleeps =
          [rOracle 0 * 1, rOracle 1 * 2, rOracle 2 * 4, rOracle 3 * 8, rOracle 4 * 16] ∧
        (retryLoop callBad rOracle defaultRetryCount).result = some (callBad 4)) := by
  have hf2 : ∀ j, j < 2 → isFailure (callOk2 j) = true := by
    intro j hj
    interval_cases j <;> rfl
  have hf5 : ∀ j, j < defaultRetryCount → isFailure (callBad j) = true := by
    intro j _
    rfl
  have h1 := retryLoop_bounds.2.2.1 String Nat callOk2 rOracle 5 2 7 (by norm_num) hf2 rfl
  have h2 := retryLoop_bounds.2.2.2 String Nat callBad rOracle hf5
  exact ⟨⟨by norm_num, hf2, rfl, h1.1, h1.2⟩, ⟨hf5, h2.1, h2.2.1, h2.2.2⟩⟩

theorem counters_match (env : DeriveEnv) (k : String) (c : List Nat) :
    ∀ (s : SysState), Reach env (initSys k c) s →
      s.dhtCounter = s.dhtPending.length ∧
        s.nodeInfoCounter = s.nodeInfoPending.length := by
  intro s h
  induction h with
  | refl => exact ⟨rfl, rfl⟩
  | step hr hs ih =>
    obtain ⟨ih1, ih2⟩ := ih
    cases hs with
    | dht i probe hlen =>
      constructor
      · simp only [execDht]
        rw [List.length_append]
        have he := List.length_eraseIdx_add_one hlen
        omega
      · simp only [execDht]
        rw [List.length_append]
        split <;> simp_all
    | node i payload hlen =>
      constructor
      · exact ih1
      · simp only [execNodeInfo]
        have he := List.length_eraseIdx_add_one hlen
        omega

/-- C9: every scheduled unit of work is counted — in any reachable state
each WaitGroup counter equals the number of scheduled-but-not-completed
goroutines of its phase (increment at schedule time, decrement on
completion, early-return paths included) — and once the discovery counter
is zero no step can raise the nodeinfo counter (metadata increments come
only from a running discovery task), so draining discovery first and then
nodeinfo never observes a false zero. -/
theorem coordinator_counters_safe :
    (∀ (env : DeriveEnv) (k : String) (c : List Nat) (s : SysState),
      Reach env (initSys k c) s →
      s.dhtCounter = s.dhtPending.length ∧
        s.nodeInfoCounter = s.nodeInfoPending.length) ∧
    (∀ (env : DeriveEnv) (k : String) (c : List Nat) (s s2 : SysState),
      Reach env (initSys k c) s → s.dhtCounter = 0 → Step env s s2 →
      s2.dhtCounter = 0 ∧ s2.nodeInfoCounter ≤ s.nodeInfoCounter) := by
  constructor
  · intro env k c s hr
    exact counters_match env k c s hr
  · intro env k c s s2 hr h0 hs
    have hinv := counters_match env k c s hr
    cases hs with
    | dht i probe hlen =>
      exfalso
      rw [hinv.1] at h0
      omega
    | node i payload hlen =>
      constructor
      · exact h0
      · show s.nodeInfoCounter - 1 ≤ s.nodeInfoCounter
        omega

/-- The seeded initial system state for the coordinator witness. -/
def sysInit : SysState := initSys "s" []

/-- The state after the seed discovery task completes successfully with no
rumours: discovery drained, one nodeinfo task outstanding. -/
def sysS1 : SysState :=
  execDht env0 sysInit 0 (some { Coords := [], Infos := [] }) (by decide)

/-- The state after the outstanding nodeinfo task completes. -/
def sysS2 : SysState := execNodeInfo env0 sysS1 0 none (by decide)

/-- C9 witness: on the concrete two-step run, the counters match the
outstanding work, and the step taken from the discovery-drained state keeps
the discovery counter at zero and does not raise the nodeinfo counter. -/
theorem coordinator_counters_safe_wit :
    (sysS1.dhtCounter = sysS1.dhtPending.length ∧
        sysS1.nodeInfoCounter = sysS1.nodeInfoPending.length) ∧
      sysS1.dhtCounter = 0 ∧
      sysS2.dhtCounter = 0 ∧ sysS2.nodeInfoCounter ≤ sysS1.nodeInfoCounter := by
  have hstep1 : Step env0 sysInit sysS1 :=
    Step.dht sysInit 0 (some { Coords := [], Infos := [] }) (by decide)
  have hreach1 : Reach env0 (initSys "s" []) sysS1 := Reach.step Reach.refl hstep1
  have h1 := coordinator_counters_safe.1 env0 "s" [] sysS1 hreach1
  have hd0 : sysS1.dhtCounter = 0 := by decide
  have hstep2 : Step env0 sysS1 sysS2 := Step.node sysS1 0 none (by decide)
  have h2 := coordinator_counters_safe.2 env0 "s" [] sysS1 sysS2 hreach1 hd0 hstep2
  exact ⟨h1, hd0, h2.1, h2.2⟩

end Yggcrawl
